import Mathlib

/-!
Verification development for the btdBotClient repository (src/btdBotClient.py).

The core components modelled here, following the source:
* the message parser `parse_trade_message` (lines 477-613),
* the numeric normalizer `round_to_tick` / `round_to_step` / `float_to_str`
  (lines 201-271),
* the position sizer `get_order_size` (lines 164-183),
* the state store and recovery logic (`initialize` lines 434-450, the
  `finally` block lines 662-668),
* the initialization error paths and the `enable_trading` guard
  (lines 359-361, 374-405, 452-467, 472-475).

Python floats are modelled as exact rationals (`ℚ`); Python strings as lists
of characters (every `str` operation used by the source is re-implemented by
structural recursion so that each definition evaluates inside the kernel).
Machine-float rounding noise is not itself the subject of any claim.
-/

namespace BtdBot

/-! ## Python string primitives

Small total models of the Python `str` operations the source uses, over
`List Char`.
-/

/-- Model of Python `str.strip()`: remove whitespace from both ends. -/
def py_strip (l : List Char) : List Char :=
  ((l.dropWhile Char.isWhitespace).reverse.dropWhile Char.isWhitespace).reverse

/-- ASCII uppercase of one character, as Python `str.upper()` acts on the
ASCII range (which covers every message the source handles). -/
def py_upper_char (c : Char) : Char :=
  if 'a' ≤ c ∧ c ≤ 'z' then Char.ofNat (c.toNat - 32) else c

/-- Model of Python `str.upper()`. -/
def py_upper (l : List Char) : List Char := l.map py_upper_char

/-- Model of Python `sep in s` for a one-character `sep`. -/
def py_contains_char (l : List Char) (sep : Char) : Bool :=
  l.any (fun c => c = sep)

/-- Model of Python `s.split(sep)` for a one-character separator: splits at
every occurrence, keeping empty fields (so `''.split(',') == ['']`). -/
def py_split (sep : Char) : List Char → List (List Char)
  | [] => [[]]
  | c :: rest =>
    if c = sep then [] :: py_split sep rest
    else
      match py_split sep rest with
      | [] => [[c]]
      | f :: fs => (c :: f) :: fs

/-- Model of Python `s.startswith(p)`. -/
def py_startswith (l p : List Char) : Bool := List.isPrefixOf p l

/-- Model of Python `str.isnumeric()` for ASCII input: non-empty and all
characters are decimal digits. -/
def py_isnumeric (l : List Char) : Bool :=
  !l.isEmpty && l.all (fun c => c.isDigit)

/-- Lexicographic (code-point) order on character lists, as Python compares
strings with `<` / `>`. -/
def py_chars_lt : List Char → List Char → Bool
  | [], [] => false
  | [], _ :: _ => true
  | _ :: _, [] => false
  | a :: as, b :: bs => if a < b then true else if b < a then false else py_chars_lt as bs

/-- Model of Python `a > b` on strings: strict lexicographic comparison. -/
def py_str_gt (a b : List Char) : Bool := py_chars_lt b a

/-! ## Exceptions

The Python exceptions this code can raise.  `attributeError` is raised by a
call to a method the receiver type does not have; `fileNotFoundError` by
`open` on a path that does not exist. -/

inductive PyErr where
  | attributeError (method : String)
  | fileNotFoundError (path : String)
  deriving DecidableEq

/-- Decidable equality on `Except`, so theorems about raising code can be
settled by `decide`. -/
instance {ε α : Type} [DecidableEq ε] [DecidableEq α] : DecidableEq (Except ε α) := fun a b =>
  match a, b with
  | .ok x, .ok y =>
      if h : x = y then .isTrue (by rw [h]) else .isFalse (by intro hc; cases hc; exact h rfl)
  | .error x, .error y =>
      if h : x = y then .isTrue (by rw [h]) else .isFalse (by intro hc; cases hc; exact h rfl)
  | .ok _, .error _ => .isFalse (by intro hc; cases hc)
  | .error _, .ok _ => .isFalse (by intro hc; cases hc)

/-! ## Message parser (lines 477-613) -/

/-- The order record built at lines 606-611.  The source stores the raw
message tokens, so every field is a string (no `int` conversion happens). -/
structure TradeOrder where
  pair : List Char
  buy_count : List Char
  buy_total : List Char
  sell_price : List Char
  deriving DecidableEq

/-- Embedding of `parse_trade_message` (lines 477-613).

Faithful control flow:
* line 483: `msg = str(msg_text).strip().upper()`;
* lines 486-489: no comma in the message → log and return `None`;
* lines 492-498: split on `','`, part count must be 3 (the length-3 check at
  line 495 is embedded as the three-element match);
* lines 501-509: the second part, stripped, must start with `BUY`;
* line 512: `msg_buy_order.contains(' ')` — Python `str` has **no** method
  named `contains`, so this call raises `AttributeError` unconditionally.
  Everything from line 517 to line 613 is unreachable; it is modelled
  separately below (`parse_trade_message_cf`, `buy_numbers_ok`) so its
  validation logic can still be analysed. -/
def parse_trade_message (msg_text : List Char) : Except PyErr (Option TradeOrder) :=
  let msg := py_upper (py_strip msg_text)
  if ¬ py_contains_char msg ',' then .ok none
  else
    match py_split ',' msg with
    | [_msg_timestamp, p1, _p2] =>
      let msg_buy_order := py_strip p1
      if ¬ py_startswith msg_buy_order "BUY".data then .ok none
      else .error (.attributeError "contains")
    | _ => .ok none

/-- Embedding of the numeric validation of the buy clause, lines 550-560,
exactly as written:
* line 551 rejects only when `count` **and** `total` are both non-numeric
  (`if not a.isnumeric() and not b.isnumeric()`);
* line 557 rejects when `count > total` compared **as strings**
  (lexicographically), not as integers.
Returns `true` when the clause passes both checks. -/
def buy_numbers_ok (msg_buy_count msg_buy_total : List Char) : Bool :=
  if !py_isnumeric msg_buy_count && !py_isnumeric msg_buy_total then false
  else if py_str_gt msg_buy_count msg_buy_total then false
  else true

/-- Counterfactual embedding of `parse_trade_message` in which the two calls
`msg_buy_order.contains(' ')` (line 512) and `msg_sell_order.contains(' ')`
(line 569) are read as the substring tests the author evidently intended,
so that the otherwise-unreachable validation code of lines 517-613 can be
analysed.  Everything else is as written in the source — in particular
line 574, `sell_parts = msg_buy_order.split(' ')`, splits the **buy** clause
(which just passed a length-5 check at line 520), so the length-3 check at
line 577 fails on every input and no message can ever produce an order. -/
def parse_trade_message_cf (msg_text : List Char) : Option TradeOrder :=
  let msg := py_upper (py_strip msg_text)
  if ¬ py_contains_char msg ',' then none
  else
    match py_split ',' msg with
    | [_msg_timestamp, p1, p2] =>
      let msg_buy_order := py_strip p1
      let msg_sell_order := py_strip p2
      if ¬ py_startswith msg_buy_order "BUY".data then none
      else if ¬ py_contains_char msg_buy_order ' ' then none
      else
        match py_split ' ' msg_buy_order with
        | [buy0, buy1, buy2, buy3, buy4] =>
          let msg_buy_command := py_strip buy0
          let msg_buy_pair := py_strip buy1
          let msg_buy_count := py_strip buy2
          let msg_buy_of := py_strip buy3
          let msg_buy_total := py_strip buy4
          if ¬ msg_buy_command = "BUY".data then none
          else if ¬ msg_buy_pair = "BTC_USD".data then none
          else if ¬ msg_buy_of = "OF".data then none
          else if ¬ buy_numbers_ok msg_buy_count msg_buy_total then none
          else if ¬ py_startswith msg_sell_order "SELL".data then none
          else if ¬ py_contains_char msg_sell_order ' ' then none
          else
            -- line 574: the source splits msg_buy_order here, not msg_sell_order
            match py_split ' ' msg_buy_order with
            | [sell0, sell1, sell2] =>
              let msg_sell_command := py_strip sell0
              let msg_sell_at := py_strip sell1
              let msg_sell_price := py_strip sell2
              if ¬ msg_sell_command = "SELL".data then none
              else if ¬ msg_sell_at = "@".data then none
              else if ¬ py_isnumeric msg_sell_price then none
              else
                some { pair := msg_buy_pair, buy_count := msg_buy_count,
                       buy_total := msg_buy_total, sell_price := msg_sell_price }
            | _ => none
        | _ => none
    | _ => none

/-! ## Market constraints (the `pair_info` record)

Field names mirror the exact dictionary keys the source reads:
`tick_size` (line 195), `step_size` (line 199), `minOrderSize` (line 191),
`maxposition_size` (line 187). -/

structure PairInfo where
  tick_size : ℚ
  step_size : ℚ
  minOrderSize : ℚ
  maxposition_size : ℚ
  deriving DecidableEq

/-- `get_max_qty` (lines 185-187). -/
def get_max_qty (info : PairInfo) : ℚ := info.maxposition_size

/-- `get_min_qty` (lines 189-191). -/
def get_min_qty (info : PairInfo) : ℚ := info.minOrderSize

/-- `get_tick` (lines 193-195). -/
def get_tick (info : PairInfo) : ℚ := info.tick_size

/-- `get_step` (lines 197-199). -/
def get_step (info : PairInfo) : ℚ := info.step_size

/-! ## Numeric normalizer (lines 201-271) -/

/-- Embedding of `round_to_tick` (lines 201-205):
`math.floor(value / tick_size) * tick_size`.  The source resolves the pair
to its `pair_info` through global state; here the record is a parameter. -/
def round_to_tick (value : ℚ) (info : PairInfo) : ℚ :=
  let tick_size := get_tick info
  let tnum_ticks : ℤ := ⌊value / tick_size⌋
  (tnum_ticks : ℚ) * tick_size

/-- Embedding of `round_to_step` (lines 207-211):
`math.floor(value / step_size) * step_size`. -/
def round_to_step (value : ℚ) (info : PairInfo) : ℚ :=
  let step_size := get_step info
  let num_steps : ℤ := ⌊value / step_size⌋
  (num_steps : ℚ) * step_size

/-- One decimal digit as a character. -/
def nat_digit_char (d : Nat) : Char := Char.ofNat (48 + d)

/-- Decimal digits of `n`, most significant first, via explicit fuel (the
fuel `n + 1` always suffices since `n / 10` shrinks strictly). -/
def nat_chars_fuel : Nat → Nat → List Char
  | 0, _ => []
  | fuel + 1, n =>
    if n < 10 then [nat_digit_char n]
    else nat_chars_fuel fuel (n / 10) ++ [nat_digit_char (n % 10)]

/-- Decimal digits of `n`, most significant first (Python `str(int)` without
sign). -/
def nat_chars (n : Nat) : List Char := nat_chars_fuel (n + 1) n

/-- The low `width` decimal digits of `r`, most significant first, zero
padded on the left — the fractional block of a fixed-point rendering. -/
def frac_digits (r : Nat) : Nat → List Char
  | 0 => []
  | width + 1 => frac_digits (r / 10) width ++ [nat_digit_char (r % 10)]

/-- Rounding of a rational to the nearest integer, halves up.  Stands in for
the rounding Python performs when formatting a float with a fixed number of
decimals (the source comment at lines 219-220 points out that the value is
expected to be pre-rounded, so the tie-breaking direction never matters). -/
def round_half_up (x : ℚ) : ℤ := ⌊x + 1 / 2⌋

/-- Model of the Python format expression built at lines 257-261:
`('{val:.' + str(precision) + 'f}').format(val = value)` — fixed-point
rendering of `value` with exactly `precision` digits after the point. -/
def py_format_f (value : ℚ) (precision : Nat) : List Char :=
  let m := round_half_up (value * 10 ^ precision)
  let sign : List Char := if m < 0 then ['-'] else []
  let n := m.natAbs
  if precision = 0 then sign ++ nat_chars n
  else sign ++ nat_chars (n / 10 ^ precision) ++ '.' :: frac_digits (n % 10 ^ precision) precision

/-- Embedding of the trailing-zero loop, lines 263-265:
`while txt_out.__contains__('.') and txt_out[-1] == '0': txt_out = txt_out[:-1]`.
The loop only ever removes `'0'` characters, so the containment test is
invariant across iterations; the loop is therefore a conditional removal of
the maximal run of trailing zeros. -/
def strip_zeros (l : List Char) : List Char :=
  if py_contains_char l '.' then (l.reverse.dropWhile (fun c => c = '0')).reverse else l

/-- Embedding of lines 267-269: `if txt_out[-1] == '.': txt_out = txt_out[:-1]`
(the string is never empty at this point, so indexing its last character is
the `getLast?` comparison). -/
def strip_dot (l : List Char) : List Char :=
  if l.getLast? = some '.' then l.dropLast else l

/-- Lines 223-231: resolve the `precision_type` argument to a size; an
unrecognized value logs an error (`Bool` result) and falls back to `1.0`. -/
def precision_type_size (info : PairInfo) (precision_type : String) : ℚ × Bool :=
  if precision_type = "base_assetPrecision" then (get_step info, false)
  else if precision_type = "quote_assetPrecision" then (get_tick info, false)
  else (1.0, true)

/-- Lines 234-255: the brute-force table from size to decimal-place count.
A size outside the table logs an error (`Bool` result) and falls back to
precision `0`. -/
def size_precision (size : ℚ) : Nat × Bool :=
  if size = 1.0 then (0, false)
  else if size = 0.1 then (1, false)
  else if size = 0.01 then (2, false)
  else if size = 0.001 then (3, false)
  else if size = 0.0001 then (4, false)
  else if size = 0.00001 then (5, false)
  else if size = 0.000001 then (6, false)
  else if size = 0.0000001 then (7, false)
  else if size = 0.00000001 then (8, false)
  else (0, true)

/-- Embedding of `float_to_str` (lines 213-271).  Returns the produced
string together with the two possible error-log events: the
unknown-precision-type log of line 229 and the unknown-size log of
line 253. -/
def float_to_str (value : ℚ) (info : PairInfo) (precision_type : String) :
    List Char × Bool × Bool :=
  let st := precision_type_size info precision_type
  let sp := size_precision st.1
  (strip_dot (strip_zeros (py_format_f value sp.1)), st.2, sp.2)

/-- Number of characters after the decimal point (0 when there is none) —
the measuring rod for the decimal-place-count claims. -/
def decimal_places (l : List Char) : Nat :=
  if py_contains_char l '.' then (l.reverse.takeWhile (fun c => ¬ c = '.')).length else 0

/-! ## Position sizer (lines 164-183) -/

/-- The sentinel `-1.0` that `get_order_size` returns for an order too small
to place; the spec names this signal REJECTED. -/
def REJECTED : ℚ := -1

/-- Embedding of `get_order_size` (lines 164-183).

`total_position_size` stands for the value of `get_position_size()`, which
in the source is an explicitly stubbed exposure query (lines 160-162,
`TODO - Query exchange for current position size`); the sizing algorithm is
what is modelled.  `maxOpenOrders` is `float(config['maxOpenOrders'])`.
The result is a rational (the source returns `float(position_size)`), never
a formatted string. -/
def get_order_size (total_position_size maxOpenOrders : ℚ) (info : PairInfo) : ℚ :=
  let position_size := round_to_step (total_position_size / maxOpenOrders) info
  if position_size < get_min_qty info then REJECTED
  else
    let max_pos_size := get_max_qty info
    if position_size > max_pos_size then max_pos_size
    else position_size

/-! ## Bot state (lines 106-118) -/

/-- The `state` dictionary.  Field names and defaults follow `default_state`
(lines 106-118). -/
structure BotState where
  bot_run : Bool
  bot_init : Bool
  current_total_balance : ℚ
  current_quote_balance : ℚ
  starting_balance : ℚ
  trade_pair : List Char
  pair_info : Option PairInfo
  open_pos_info : List (List Char)
  open_trades : ℕ
  exit_order_id : Option (List Char)
  dydx_pos_id : ℕ
  deriving DecidableEq

/-- `default_state` (lines 106-118). -/
def default_state : BotState :=
  { bot_run := true
    bot_init := true
    current_total_balance := -1
    current_quote_balance := -1
    starting_balance := -1
    trade_pair := []
    pair_info := none
    open_pos_info := []
    open_trades := 0
    exit_order_id := none
    dydx_pos_id := 0 }

/-! ## State recovery at startup (lines 434-450) -/

/-- Embedding of the state-recovery block of `initialize`, lines 434-450.

The file system is modelled as the parsed content of the state file
(`none` = no file).  `cur` is the in-memory state already partially
initialized, `pair` the trade pair built at line 423, `equity` the balance
`update_current_balance` would fetch (line 152-158).

Faithful control flow:
* lines 434-435: `init_state = {}` with `exit_order_id = None`;
* lines 436-441: if the file exists, load it into `init_state` and delete
  the file (`os.remove` succeeds in this model);
* line 442: if the loaded `exit_order_id` is non-null, line 443 executes
  `state = json.load(open(settings['state_file']))` — but the file was
  deleted at line 439, so this `open` raises `FileNotFoundError`;
* lines 445-450: otherwise keep the defaults, set the pair, fetch the
  balances.
The result is the new in-memory state paired with the file content after
the block. -/
def state_recovery (fs : Option BotState) (cur : BotState) (pair : List Char) (equity : ℚ) :
    Except PyErr (BotState × Option BotState) :=
  let init_exit_order_id : Option (List Char) :=
    match fs with
    | some saved => saved.exit_order_id
    | none => none
  let fs' : Option BotState := none
  if ¬ init_exit_order_id = none then
    .error (.fileNotFoundError "btdBotClient_state.json")
  else
    .ok ({ cur with trade_pair := pair
                    current_total_balance := equity
                    starting_balance := equity }, fs')

/-! ## Shutdown persistence (lines 662-668) -/

/-- The ways the main `try` block (lines 625-656) can be left.  In every
case Python runs the `finally` block of lines 662-668: after a clean return,
after the `KeyboardInterrupt` handler (lines 658-661), and while an
uncaught exception (including the `SystemExit` of `quit()`) propagates. -/
inductive ExitPath where
  | clean
  | interrupt
  | uncaught
  deriving DecidableEq

/-- Embedding of the `finally` block, lines 662-668: the state is written to
the state file exactly when `state['exit_order_id']` is not `None`.
Returns the file content written at exit (`none` = no write). -/
def shutdown_flush (s : BotState) : Option BotState :=
  if ¬ s.exit_order_id = none then some s else none

/-- What reaches the disk on a given exit path: the `finally` block runs on
all of them, so the write decision is `shutdown_flush` regardless of path. -/
def exit_write (_path : ExitPath) (s : BotState) : Option BotState :=
  shutdown_flush s

/-! ## Initialization error paths (lines 305-475) -/

/-- The environment `initialize` runs against: which credential variables
are set, and whether the two exchange calls (`get_accounts`, line 418, and
`get_markets`, line 428) succeed. -/
structure InitEnv where
  dydx_api_key : Bool
  dydx_api_secret : Bool
  dydx_api_pass : Bool
  dydx_stark_key : Bool
  dydx_eth_addr : Bool
  get_accounts_ok : Bool
  get_markets_ok : Bool
  telegram_app_id : Bool
  telegram_app_hash : Bool
  deriving DecidableEq

/-- How `initialize` can end. -/
inductive InitResult where
  /-- `quit()` was called: it raises `SystemExit`, which derives from
  `BaseException`, so the `except Exception` handler at line 472 does not
  catch it and the process exits. -/
  | exits
  /-- `initialize` returned; the payload is `state['bot_run']` afterwards. -/
  | returns (bot_run : Bool)
  deriving DecidableEq

/-- Embedding of the error handling of `initialize` (lines 305-475).

* A missing credential environment variable is logged and followed by
  `quit()` (lines 374-405, 452-461) — the process exits.
* An exception from an exchange call is caught by the handler at
  lines 472-475, which logs it and then executes
  `state['bot_run'] == False` — an equality **comparison**, not an
  assignment — so `bot_run` keeps its value `True` (set at line 308) and
  `initialize` returns normally. -/
def run_init (env : InitEnv) : InitResult :=
  if ¬ env.dydx_api_key then .exits
  else if ¬ env.dydx_api_secret then .exits
  else if ¬ env.dydx_api_pass then .exits
  else if ¬ env.dydx_stark_key then .exits
  else if ¬ env.dydx_eth_addr then .exits
  else if ¬ env.get_accounts_ok then .returns true
  else if ¬ env.get_markets_ok then .returns true
  else if ¬ env.telegram_app_id then .exits
  else if ¬ env.telegram_app_hash then .exits
  else .returns true

/-! ## The enable_trading guard (lines 359-361, 466-467) -/

/-- The successive stages of `initialize` that run between loading the
config and the completion log, in source order. -/
inductive InitStep where
  | load_config            -- lines 346-357
  | force_trading_off      -- lines 359-361
  | create_dydx_client     -- lines 363-415
  | fetch_account          -- lines 417-420
  | fetch_market           -- lines 422-430
  | recover_state          -- lines 432-450
  | read_telegram_env      -- lines 452-461
  | create_telegram_client -- lines 463-464
  | restore_trading        -- lines 466-467
  | log_started            -- lines 469-470
  deriving DecidableEq

/-- The stages in the order the source executes them. -/
def init_step_list : List InitStep :=
  [.load_config, .force_trading_off, .create_dydx_client, .fetch_account,
   .fetch_market, .recover_state, .read_telegram_env, .create_telegram_client,
   .restore_trading, .log_started]

/-- Effect of one stage on `config['enable_trading']`: line 361 forces it to
`False`, line 467 restores the captured original; no other stage touches
it. -/
def step_effect (original : Bool) (cur : Bool) : InitStep → Bool
  | .force_trading_off => false
  | .restore_trading => original
  | _ => cur

/-- The value of `config['enable_trading']` after the first `k` stages of
`initialize` have run (a run that fails at stage `k` executes exactly the
first `k` stages; the `except` handler at lines 472-475 does not restore
the flag). -/
def enable_trading_after (original : Bool) (k : Nat) : Bool :=
  (init_step_list.take k).foldl (step_effect original) original

/-! ## Concrete records used by the closed theorems -/

/-- A saved mid-position state: `exit_order_id` is set. -/
def saved_open_state : BotState :=
  { default_state with exit_order_id := some "A1".data }

/-- An environment with every credential present and both exchange calls
succeeding. -/
def env_all_ok : InitEnv :=
  { dydx_api_key := true, dydx_api_secret := true, dydx_api_pass := true
    dydx_stark_key := true, dydx_eth_addr := true, get_accounts_ok := true
    get_markets_ok := true, telegram_app_id := true, telegram_app_hash := true }

/-! # Helper lemmas about characters and lists -/

theorem chars_dropWhile_length_le (p : Char → Bool) (l : List Char) :
    (l.dropWhile p).length ≤ l.length := by
  induction l with
  | nil => simp [List.dropWhile]
  | cons c cs ih =>
    rw [List.dropWhile]
    by_cases h : p c
    · simp only [h]
      exact Nat.le_succ_of_le ih
    · simp [h]

theorem chars_dropWhile_head_false (p : Char → Bool) (l : List Char) (c : Char)
    (h : (l.dropWhile p).head? = some c) : p c = false := by
  induction l with
  | nil => simp [List.dropWhile] at h
  | cons a as ih =>
    rw [List.dropWhile] at h
    by_cases hp : p a
    · simp only [hp] at h
      exact ih h
    · simp only [hp] at h
      simp only [List.head?] at h
      cases h
      simpa using hp

theorem chars_dropWhile_mem (p : Char → Bool) (l : List Char) (c : Char)
    (h : c ∈ l.dropWhile p) : c ∈ l := by
  induction l with
  | nil => simp [List.dropWhile] at h
  | cons a as ih =>
    rw [List.dropWhile] at h
    by_cases hp : p a
    · simp only [hp] at h
      exact List.mem_cons_of_mem a (ih h)
    · simpa [hp] using h

theorem chars_takeWhile_append (q : Char → Bool) (l₁ l₂ : List Char)
    (h : ∀ c ∈ l₁, q c = true) : (l₁ ++ l₂).takeWhile q = l₁ ++ l₂.takeWhile q := by
  induction l₁ with
  | nil => simp
  | cons a as ih =>
    simp only [List.cons_append, List.takeWhile]
    rw [h a (by simp)]
    simp [ih (fun c hc => h c (by simp [hc]))]

theorem nat_digit_char_isDigit (d : Nat) (h : d < 10) :
    (nat_digit_char d).isDigit = true := by
  interval_cases d <;> decide

theorem isDigit_ne_dot (c : Char) (h : c.isDigit = true) : ¬ c = '.' := by
  intro he
  rw [he] at h
  exact absurd h (by decide)

theorem nat_chars_fuel_digits (fuel : Nat) :
    ∀ n : Nat, ∀ c ∈ nat_chars_fuel fuel n, c.isDigit = true := by
  induction fuel with
  | zero => intro n c hc; simp [nat_chars_fuel] at hc
  | succ f ih =>
    intro n c hc
    rw [nat_chars_fuel] at hc
    by_cases h : n < 10
    · rw [if_pos h] at hc
      simp only [List.mem_singleton] at hc
      rw [hc]
      exact nat_digit_char_isDigit n h
    · rw [if_neg h] at hc
      rcases List.mem_append.mp hc with h1 | h2
      · exact ih (n / 10) c h1
      · simp only [List.mem_singleton] at h2
        rw [h2]
        exact nat_digit_char_isDigit _ (Nat.mod_lt n (by norm_num))

theorem nat_chars_digits (n : Nat) : ∀ c ∈ nat_chars n, c.isDigit = true :=
  nat_chars_fuel_digits (n + 1) n

theorem nat_chars_ne_nil (n : Nat) : nat_chars n ≠ [] := by
  unfold nat_chars nat_chars_fuel
  by_cases h : n < 10
  · simp [h]
  · simp [h]

theorem frac_digits_length (r w : Nat) : (frac_digits r w).length = w := by
  induction w generalizing r with
  | zero => rfl
  | succ w ih => simp [frac_digits, ih]

theorem frac_digits_digits (w : Nat) :
    ∀ r : Nat, ∀ c ∈ frac_digits r w, c.isDigit = true := by
  induction w with
  | zero => intro r c hc; simp [frac_digits] at hc
  | succ w ih =>
    intro r c hc
    rw [frac_digits] at hc
    rcases List.mem_append.mp hc with h1 | h2
    · exact ih (r / 10) c h1
    · simp only [List.mem_singleton] at h2
      rw [h2]
      exact nat_digit_char_isDigit _ (Nat.mod_lt r (by norm_num))

/-- For a positive precision the rendered string is `pre ++ '.' :: frac`
with a dot-free nonempty prefix and a dot-free fractional block of exactly
`precision` digits. -/
theorem py_format_f_shape (v : ℚ) (p : Nat) (hp : 0 < p) :
    ∃ pre frac : List Char, py_format_f v p = pre ++ '.' :: frac
      ∧ (∀ c ∈ pre, ¬ c = '.') ∧ (∀ c ∈ frac, ¬ c = '.')
      ∧ pre ≠ [] ∧ frac.length = p := by
  unfold py_format_f
  simp only []
  rw [if_neg (Nat.pos_iff_ne_zero.mp hp)]
  set m := round_half_up (v * 10 ^ p) with hm
  set sign : List Char := if m < 0 then ['-'] else [] with hsign
  refine ⟨sign ++ nat_chars (m.natAbs / 10 ^ p), frac_digits (m.natAbs % 10 ^ p) p,
    by rw [List.append_assoc], ?_, ?_, ?_, frac_digits_length _ _⟩
  · intro c hc
    rcases List.mem_append.mp hc with h1 | h2
    · rw [hsign] at h1
      by_cases hneg : m < 0
      · rw [if_pos hneg] at h1
        simp only [List.mem_singleton] at h1
        rw [h1]
        decide
      · rw [if_neg hneg] at h1
        simp at h1
    · exact isDigit_ne_dot c (nat_chars_digits _ c h2)
  · intro c hc
    exact isDigit_ne_dot c (frac_digits_digits p _ c hc)
  · intro h
    exact nat_chars_ne_nil _ (List.append_eq_nil.mp h).2

/-- For precision 0 the rendered string is nonempty and dot-free. -/
theorem py_format_f_zero (v : ℚ) :
    (∀ c ∈ py_format_f v 0, ¬ c = '.') ∧ py_format_f v 0 ≠ [] := by
  have h : py_format_f v 0
      = (if round_half_up (v * 10 ^ 0) < 0 then ['-'] else [])
        ++ nat_chars (round_half_up (v * 10 ^ 0)).natAbs := by
    unfold py_format_f
    simp
  rw [h]
  constructor
  · intro c hc
    rcases List.mem_append.mp hc with h1 | h2
    · by_cases hneg : round_half_up (v * 10 ^ 0) < 0
      · rw [if_pos hneg] at h1
        simp only [List.mem_singleton] at h1
        rw [h1]
        decide
      · rw [if_neg hneg] at h1
        simp at h1
    · exact isDigit_ne_dot c (nat_chars_digits _ c h2)
  · intro hnil
    exact nat_chars_ne_nil _ (List.append_eq_nil.mp hnil).2

/-- Stripping is the identity on a dot-free nonempty string. -/
theorem strip_nodot (l : List Char) (h : ∀ c ∈ l, ¬ c = '.') (hne : l ≠ []) :
    strip_dot (strip_zeros l) = l := by
  have hcont : py_contains_char l '.' = false := by
    rw [py_contains_char, List.any_eq_false]
    intro c hc
    simpa using h c hc
  have h1 : strip_zeros l = l := by
    unfold strip_zeros
    rw [if_neg (by simp [hcont])]
  have h2 : ¬ l.getLast? = some '.' := by
    intro hlast
    exact h '.' (List.mem_of_mem_getLast? hlast) rfl
  rw [h1]
  unfold strip_dot
  rw [if_neg h2]

/-- The effect of the two stripping steps on a string of the shape
`pre ++ '.' :: frac`: the result has no trailing zero while it keeps a dot,
never ends in a dot, and keeps at most `frac.length` decimal places. -/
theorem strip_clean (pre frac : List Char)
    (hpre : ∀ c ∈ pre, ¬ c = '.') (hfrac : ∀ c ∈ frac, ¬ c = '.') (hpre_ne : pre ≠ []) :
    (py_contains_char (strip_dot (strip_zeros (pre ++ '.' :: frac))) '.' = true →
      ¬ (strip_dot (strip_zeros (pre ++ '.' :: frac))).getLast? = some '0')
    ∧ ¬ (strip_dot (strip_zeros (pre ++ '.' :: frac))).getLast? = some '.'
    ∧ decimal_places (strip_dot (strip_zeros (pre ++ '.' :: frac))) ≤ frac.length := by
  have hcont : py_contains_char (pre ++ '.' :: frac) '.' = true := by
    simp [py_contains_char]
  have hrev : (pre ++ '.' :: frac).reverse = frac.reverse ++ '.' :: pre.reverse := by
    rw [List.reverse_append, List.reverse_cons, List.append_assoc, List.singleton_append]
  cases hf : frac.reverse.dropWhile (fun c => c = '0') with
  | nil =>
    have hzA : strip_zeros (pre ++ '.' :: frac) = pre ++ ['.'] := by
      unfold strip_zeros
      rw [if_pos (by simp [hcont]), hrev, List.dropWhile_append, hf]
      simp [List.dropWhile_cons]
    have hsA : strip_dot (strip_zeros (pre ++ '.' :: frac)) = pre := by
      rw [hzA]
      unfold strip_dot
      rw [if_pos (by rw [List.getLast?_concat])]
      exact List.dropLast_concat
    rw [hsA]
    have hpc : py_contains_char pre '.' = false := by
      rw [py_contains_char, List.any_eq_false]
      intro x hx
      simpa using hpre x hx
    refine ⟨?_, ?_, ?_⟩
    · intro h
      rw [hpc] at h
      simp at h
    · intro hlast
      exact hpre '.' (List.mem_of_mem_getLast? hlast) rfl
    · unfold decimal_places
      rw [if_neg (by simp [hpc])]
      exact Nat.zero_le _
  | cons c f' =>
    have hc0 : ¬ c = '0' := by
      have := chars_dropWhile_head_false (fun c => c = '0') frac.reverse c
        (by rw [hf]; rfl)
      simpa using this
    have hcmem : c ∈ frac := by
      have h1 : c ∈ frac.reverse.dropWhile (fun c => c = '0') := by
        rw [hf]; exact List.mem_cons_self c f'
      exact List.mem_reverse.mp (chars_dropWhile_mem _ _ _ h1)
    have hcdot : ¬ c = '.' := hfrac c hcmem
    have hfsub : ∀ x ∈ c :: f', x ∈ frac := by
      intro x hx
      rw [← hf] at hx
      exact List.mem_reverse.mp (chars_dropWhile_mem _ _ _ hx)
    have hzB : strip_zeros (pre ++ '.' :: frac) = (pre ++ '.' :: f'.reverse) ++ [c] := by
      unfold strip_zeros
      rw [if_pos (by simp [hcont]), hrev, List.dropWhile_append, hf]
      simp [List.reverse_append, List.append_assoc]
    have hlast : (strip_zeros (pre ++ '.' :: frac)).getLast? = some c := by
      rw [hzB, List.getLast?_concat]
    have hsB : strip_dot (strip_zeros (pre ++ '.' :: frac))
        = strip_zeros (pre ++ '.' :: frac) := by
      unfold strip_dot
      rw [if_neg (by rw [hlast]; simp [hcdot])]
    rw [hsB]
    refine ⟨?_, ?_, ?_⟩
    · intro _
      rw [hlast]
      simp only [Option.some.injEq]
      exact hc0
    · rw [hlast]
      simp only [Option.some.injEq]
      exact hcdot
    · have hpc : py_contains_char (strip_zeros (pre ++ '.' :: frac)) '.' = true := by
        rw [hzB]
        simp [py_contains_char]
      have hrr : (strip_zeros (pre ++ '.' :: frac)).reverse
          = (c :: f') ++ '.' :: pre.reverse := by
        rw [hzB]
        simp [List.reverse_append, List.append_assoc]
      unfold decimal_places
      rw [if_pos (by simp [hpc]), hrr]
      have htw : ((c :: f') ++ '.' :: pre.reverse).takeWhile (fun x => ¬ x = '.')
          = c :: f' := by
        rw [chars_takeWhile_append]
        · rw [List.takeWhile_cons]
          simp
        · intro x hx
          simp only [decide_eq_true_eq]
          exact hfrac x (hfsub x hx)
      rw [htw]
      calc (c :: f').length ≤ frac.reverse.length := by
            rw [← hf]; exact chars_dropWhile_length_le _ _
        _ = frac.length := List.length_reverse frac

/-- The produced string of `float_to_str` has no trailing zero while it
keeps a decimal point, never ends in the point itself, and its
decimal-place count is bounded by the table entry of the resolved size. -/
theorem float_to_str_clean (v : ℚ) (info : PairInfo) (pt : String) :
    (py_contains_char (float_to_str v info pt).1 '.' = true →
      ¬ (float_to_str v info pt).1.getLast? = some '0')
    ∧ ¬ (float_to_str v info pt).1.getLast? = some '.'
    ∧ decimal_places (float_to_str v info pt).1
        ≤ (size_precision (precision_type_size info pt).1).1 := by
  unfold float_to_str
  simp only []
  set p := (size_precision (precision_type_size info pt).1).1 with hp
  by_cases hp0 : p = 0
  · rw [hp0]
    obtain ⟨hnd, hne⟩ := py_format_f_zero v
    rw [strip_nodot _ hnd hne]
    have hpc : py_contains_char (py_format_f v 0) '.' = false := by
      rw [py_contains_char, List.any_eq_false]
      intro x hx
      simpa using hnd x hx
    refine ⟨?_, ?_, ?_⟩
    · intro h
      rw [hpc] at h
      simp at h
    · intro hlast
      exact hnd '.' (List.mem_of_mem_getLast? hlast) rfl
    · unfold decimal_places
      rw [if_neg (by simp [hpc])]
  · obtain ⟨pre, frac, heq, hpre, hfrac, hpre_ne, hlen⟩ :=
      py_format_f_shape v p (Nat.pos_of_ne_zero hp0)
    rw [heq]
    have := strip_clean pre frac hpre hfrac hpre_ne
    rw [hlen] at this
    exact this

/-! # The claims -/

/-- **C1.** The spec: `parseTradeMessage` terminates normally on every input,
never raises, and rejected input yields `null` plus a diagnostic log line.
The code violates this: line 512 calls `msg_buy_order.contains(' ')`, a
method Python strings do not have, so every message that survives the first
three checks raises `AttributeError` — among them `"1,BUY,EXIT"`, an input
of the source's own unit-test block (line 634).  The inputs that fail the
earlier checks do return `None` as specified. -/
theorem C1_parse_raises_attribute_error :
    parse_trade_message "1,BUY,EXIT".data = .error (.attributeError "contains")
    ∧ parse_trade_message " Test ".data = .ok none
    ∧ parse_trade_message "1,2".data = .ok none
    ∧ parse_trade_message "1, 2, 3".data = .ok none := by
  refine ⟨by decide, by decide, by decide, by decide⟩

/-- **C2.** The spec's golden example
`parseTradeMessage("2022-11-22T14:00:00Z, BUY BTC_USD 5 OF 8, SELL @ 18698")`
should return `{pair:"BTC_USD", buyCount:5, buyTotal:8, sellPrice:18698}`.
The code instead raises `AttributeError` at line 512 on that very input;
moreover no input whatsoever can reach the success path (first conjunct
universally), and even reading the `contains` calls as the intended
substring tests, line 574 splits the buy clause in place of the sell clause
(5 parts against the required 3), so the golden input still yields `None`. -/
theorem C2_success_path_unreachable :
    parse_trade_message "2022-11-22T14:00:00Z, BUY BTC_USD 5 OF 8, SELL @ 18698".data
      = .error (.attributeError "contains")
    ∧ (∀ s : List Char, ∀ o : TradeOrder, parse_trade_message s ≠ .ok (some o))
    ∧ parse_trade_message_cf "2022-11-22T14:00:00Z, BUY BTC_USD 5 OF 8, SELL @ 18698".data
      = none := by
  refine ⟨by decide, ?_, by decide⟩
  intro s o
  unfold parse_trade_message
  simp only []
  split
  · simp
  · split
    · split
      · simp
      · simp
    · simp

/-- **C5.** The spec: tokens 2 and 4 of the buy clause must each be a
non-negative integer, compared as integers, with the boundary
`count == total` accepted.  The code violates every part:
* the boundary message raises `AttributeError` at line 512 before the
  numeric checks can run;
* line 551 (`if not count.isnumeric() and not total.isnumeric()`) rejects
  only when **both** tokens are non-numeric, so the mixed pair
  `("5", "X")` passes;
* line 557 compares the tokens as strings, so `("10", "9")` is accepted
  (`"10" < "9"` lexicographically) though 10 > 9, and `("9", "10")` is
  rejected though 9 ≤ 10. -/
theorem C5_numeric_rules_broken :
    parse_trade_message "2022-11-22T14:00:00Z, BUY BTC_USD 5 OF 5, SELL @ 18698".data
      = .error (.attributeError "contains")
    ∧ buy_numbers_ok "5".data "X".data = true
    ∧ buy_numbers_ok "10".data "9".data = true
    ∧ buy_numbers_ok "9".data "10".data = false
    ∧ buy_numbers_ok "5".data "5".data = true := by
  refine ⟨by decide, by decide, by decide, by decide, by decide⟩

/-- **C3.** The spec's round trip — save a `BotState` with non-null
`exitOrderId`, restart, and the in-memory state equals the saved record —
fails on the code: the recovery block deletes the state file at line 439
and then line 443 re-opens the same path, which raises
`FileNotFoundError`, so the saved record is never restored.  The first
conjunct shows the save side writes the record; the second shows the load
side raises instead of producing it. -/
theorem C3_round_trip_raises :
    shutdown_flush saved_open_state = some saved_open_state
    ∧ state_recovery (some saved_open_state) default_state "BTC-USD".data 100
        = .error (.fileNotFoundError "btdBotClient_state.json") := by
  constructor
  · rfl
  · rfl

/-- **C4.** On every exit path of the main `try` block — clean shutdown,
`KeyboardInterrupt`, or a propagating exception — the `finally` block of
lines 662-668 runs, and it writes the state to the state file exactly when
`exit_order_id` is non-null; a flat state is never persisted. -/
theorem C4_flush_iff_open_position :
    ∀ path : ExitPath, ∀ s : BotState,
      (exit_write path s = some s ↔ ¬ s.exit_order_id = none)
      ∧ (s.exit_order_id = none → exit_write path s = none) := by
  intro path s
  unfold exit_write shutdown_flush
  by_cases h : s.exit_order_id = none
  · simp [h]
  · simp [h]

/-- **C6.** The position sizer divides the exposure by `maxOpenOrders`,
floors the quotient to the step size, rejects (returns the `-1.0` sentinel)
exactly when the floored target is strictly below `minOrderSize`, clamps to
`maxposition_size` when the target exceeds it, and otherwise returns the
target itself — always a rational, never a formatted string. -/
theorem C6_order_size_clamp (total_position_size maxOpenOrders : ℚ) (info : PairInfo)
    (hexp : 0 < total_position_size) (hoo : 0 < maxOpenOrders)
    (hmin : 0 < get_min_qty info) (hminmax : get_min_qty info ≤ get_max_qty info) :
    (get_order_size total_position_size maxOpenOrders info = REJECTED
      ↔ round_to_step (total_position_size / maxOpenOrders) info < get_min_qty info)
    ∧ (get_max_qty info < round_to_step (total_position_size / maxOpenOrders) info →
        get_order_size total_position_size maxOpenOrders info = get_max_qty info)
    ∧ (get_min_qty info ≤ round_to_step (total_position_size / maxOpenOrders) info →
        round_to_step (total_position_size / maxOpenOrders) info ≤ get_max_qty info →
        get_order_size total_position_size maxOpenOrders info
          = round_to_step (total_position_size / maxOpenOrders) info) := by
  unfold get_order_size
  simp only []
  set target := round_to_step (total_position_size / maxOpenOrders) info with htarget
  refine ⟨?_, ?_, ?_⟩
  · constructor
    · intro h
      by_contra hlt
      rw [if_neg hlt] at h
      by_cases hmax : target > get_max_qty info
      · rw [if_pos hmax] at h
        have h2 : get_min_qty info ≤ REJECTED := h ▸ hminmax
        have h3 : REJECTED < get_min_qty info :=
          lt_of_lt_of_le (by norm_num [REJECTED]) hmin.le
        exact absurd (lt_of_le_of_lt h2 h3) (lt_irrefl _)
      · rw [if_neg hmax] at h
        push_neg at hlt
        have : REJECTED < target := lt_of_lt_of_le (lt_of_lt_of_le (by norm_num [REJECTED]) hmin.le) hlt
        rw [h] at this
        exact absurd this (lt_irrefl _)
    · intro h
      rw [if_pos h]
  · intro h
    have hnl : ¬ target < get_min_qty info := not_lt.mpr (le_of_lt (lt_of_le_of_lt hminmax h))
    rw [if_neg hnl, if_pos h]
  · intro h1 h2
    rw [if_neg (not_lt.mpr h1), if_neg (not_lt.mpr h2)]

/-- Witness for C6 at a concrete input: exposure 100, 4 open orders, step
size 1, minimum 1, maximum 10; the floored per-order target 25 exceeds the
maximum, so the sizer returns exactly the maximum. -/
theorem C6_order_size_clamp_witness :
    get_order_size 100 4 ⟨1, 1, 1, 10⟩ = get_max_qty ⟨1, 1, 1, 10⟩ :=
  (C6_order_size_clamp 100 4 ⟨1, 1, 1, 10⟩ (by norm_num) (by norm_num)
      (by norm_num [get_min_qty]) (by norm_num [get_min_qty, get_max_qty])).2.1
    (by
      unfold round_to_step get_step get_max_qty
      norm_num)

/-- **C7.** `round_to_step` and `round_to_tick` both floor the value to the
greatest multiple of the respective size that does not exceed it (never
rounding up), and `round_to_step` is idempotent. -/
theorem C7_round_floor_idempotent (x : ℚ) (info : PairInfo)
    (hx : 0 < x) (hs : 0 < get_step info) (ht : 0 < get_tick info) :
    (round_to_step x info ≤ x
      ∧ (∃ k : ℤ, round_to_step x info = (k : ℚ) * get_step info)
      ∧ (∀ k : ℤ, (k : ℚ) * get_step info ≤ x →
          (k : ℚ) * get_step info ≤ round_to_step x info))
    ∧ (round_to_tick x info ≤ x
      ∧ (∃ k : ℤ, round_to_tick x info = (k : ℚ) * get_tick info)
      ∧ (∀ k : ℤ, (k : ℚ) * get_tick info ≤ x →
          (k : ℚ) * get_tick info ≤ round_to_tick x info))
    ∧ round_to_step (round_to_step x info) info = round_to_step x info := by
  have floor_le : ∀ s : ℚ, 0 < s → ((⌊x / s⌋ : ℚ)) * s ≤ x := by
    intro s hs0
    calc ((⌊x / s⌋ : ℚ)) * s ≤ (x / s) * s :=
          mul_le_mul_of_nonneg_right (Int.floor_le _) hs0.le
      _ = x := div_mul_cancel₀ x (ne_of_gt hs0)
  have floor_max : ∀ s : ℚ, 0 < s → ∀ k : ℤ, (k : ℚ) * s ≤ x →
      (k : ℚ) * s ≤ ((⌊x / s⌋ : ℚ)) * s := by
    intro s hs0 k hk
    have h1 : (k : ℚ) ≤ x / s := (le_div_iff₀ hs0).mpr hk
    have h2 : k ≤ ⌊x / s⌋ := Int.le_floor.mpr h1
    exact mul_le_mul_of_nonneg_right (by exact_mod_cast h2) hs0.le
  refine ⟨⟨?_, ⟨⌊x / get_step info⌋, rfl⟩, ?_⟩, ⟨?_, ⟨⌊x / get_tick info⌋, rfl⟩, ?_⟩, ?_⟩
  · exact floor_le _ hs
  · exact floor_max _ hs
  · exact floor_le _ ht
  · exact floor_max _ ht
  · unfold round_to_step
    simp only []
    rw [mul_div_cancel_right₀ _ (ne_of_gt hs), Int.floor_intCast]

/-- Witness for C7 at the concrete input x = 5/2 with unit tick and step
sizes. -/
theorem C7_round_floor_idempotent_witness :
    round_to_step (5 / 2 : ℚ) ⟨1, 1, 1, 10⟩ ≤ 5 / 2
    ∧ round_to_step (round_to_step (5 / 2 : ℚ) ⟨1, 1, 1, 10⟩) ⟨1, 1, 1, 10⟩
      = round_to_step (5 / 2 : ℚ) ⟨1, 1, 1, 10⟩ :=
  ⟨(C7_round_floor_idempotent (5 / 2) ⟨1, 1, 1, 10⟩ (by norm_num)
      (by norm_num [get_step]) (by norm_num [get_tick])).1.1,
   (C7_round_floor_idempotent (5 / 2) ⟨1, 1, 1, 10⟩ (by norm_num)
      (by norm_num [get_step]) (by norm_num [get_tick])).2.2⟩

/-- **C8.** `float_to_str` maps each size in the fixed set
`{1, 0.1, …, 1e-8}` to the table's decimal-place count with no failure log;
any other size is logged as a failure and formatted with 0 decimal places
while the run continues (the function still returns a string).  The
produced string never keeps a trailing zero while it has a decimal point,
never ends in the point, and its decimal-place count never exceeds the
table entry; `1.5` at size `0.001` renders as `"1.5"` and `2` as `"2"`. -/
theorem C8_precision_table_and_stripping :
    (size_precision 1.0 = (0, false) ∧ size_precision 0.1 = (1, false)
      ∧ size_precision 0.01 = (2, false) ∧ size_precision 0.001 = (3, false)
      ∧ size_precision 0.0001 = (4, false) ∧ size_precision 0.00001 = (5, false)
      ∧ size_precision 0.000001 = (6, false) ∧ size_precision 0.0000001 = (7, false)
      ∧ size_precision 0.00000001 = (8, false))
    ∧ (∀ s : ℚ, ¬ (s = 1.0 ∨ s = 0.1 ∨ s = 0.01 ∨ s = 0.001 ∨ s = 0.0001 ∨ s = 0.00001
          ∨ s = 0.000001 ∨ s = 0.0000001 ∨ s = 0.00000001) → size_precision s = (0, true))
    ∧ (∀ v : ℚ, ∀ info : PairInfo, ∀ pt : String,
        (py_contains_char (float_to_str v info pt).1 '.' = true →
          ¬ (float_to_str v info pt).1.getLast? = some '0')
        ∧ ¬ (float_to_str v info pt).1.getLast? = some '.'
        ∧ decimal_places (float_to_str v info pt).1
            ≤ (size_precision (precision_type_size info pt).1).1)
    ∧ (float_to_str (3 / 2) ⟨0.01, 0.001, 1, 10⟩ "base_assetPrecision").1 = "1.5".data
    ∧ (float_to_str 2 ⟨0.01, 0.001, 1, 10⟩ "base_assetPrecision").1 = "2".data := by
  have hbase : precision_type_size ⟨0.01, 0.001, 1, 10⟩ "base_assetPrecision"
      = (0.001, false) := by
    unfold precision_type_size get_step
    simp
  have htable : size_precision 0.001 = (3, false) := by
    unfold size_precision
    norm_num
  refine ⟨⟨?_, ?_, ?_, ?_, ?_, ?_, ?_, ?_, ?_⟩, ?_, float_to_str_clean, ?_, ?_⟩
  · unfold size_precision; norm_num
  · unfold size_precision; norm_num
  · unfold size_precision; norm_num
  · unfold size_precision; norm_num
  · unfold size_precision; norm_num
  · unfold size_precision; norm_num
  · unfold size_precision; norm_num
  · unfold size_precision; norm_num
  · unfold size_precision; norm_num
  · intro s hs
    push_neg at hs
    unfold size_precision
    rw [if_neg hs.1, if_neg hs.2.1, if_neg hs.2.2.1, if_neg hs.2.2.2.1,
      if_neg hs.2.2.2.2.1, if_neg hs.2.2.2.2.2.1, if_neg hs.2.2.2.2.2.2.1,
      if_neg hs.2.2.2.2.2.2.2.1, if_neg hs.2.2.2.2.2.2.2.2]
  · have h3 : py_format_f (3 / 2) 3 = "1.500".data := by
      unfold py_format_f round_half_up
      norm_num
      decide
    unfold float_to_str
    rw [hbase]
    simp only []
    rw [htable]
    simp only []
    rw [h3]
    decide
  · have h3 : py_format_f 2 3 = "2.000".data := by
      unfold py_format_f round_half_up
      norm_num
      decide
    unfold float_to_str
    rw [hbase]
    simp only []
    rw [htable]
    simp only []
    rw [h3]
    decide

/-- **C9.** The spec: every configuration/environment failure during
initialization is logged and the process exits immediately, no retry.
True for the missing-credential paths (they call `quit()`, whose
`SystemExit` the `except Exception` handler cannot catch), but false for
the unreachable-exchange paths: the handler at lines 472-475 catches the
exception and then executes `state['bot_run'] == False` — a comparison,
not an assignment — so `initialize` returns normally with `bot_run` still
`True` and the process continues running instead of exiting. -/
theorem C9_market_failure_does_not_exit :
    (∀ env : InitEnv, env.dydx_api_key = false → run_init env = .exits)
    ∧ (∀ env : InitEnv, env.dydx_api_secret = false → run_init env = .exits)
    ∧ run_init { env_all_ok with get_markets_ok := false } = .returns true
    ∧ run_init { env_all_ok with get_accounts_ok := false } = .returns true := by
  refine ⟨?_, ?_, by decide, by decide⟩
  · intro env h
    unfold run_init
    simp [h]
  · intro env h
    unfold run_init
    by_cases hk : env.dydx_api_key
    · simp [hk, h]
    · simp [hk]

/-- **C10.**  `config['enable_trading']` is forced to `False` at line 361,
before the exchange client is created (line 408), and stays `False` through
every later stage of `initialize` — client creation, account fetch, market
fetch, state recovery, telegram setup — until line 467 restores the
captured original as the final config-touching step before the completion
log.  A run that fails anywhere in between executes only a prefix and
never restores, so trading can never be enabled while initialization is in
progress (stages 2 through 8). -/
theorem C10_enable_trading_guard :
    ∀ original : Bool, ∀ k : Nat, k < 11 →
      ((2 ≤ k → k ≤ 8 → enable_trading_after original k = false)
        ∧ (9 ≤ k → enable_trading_after original k = original)) := by
  decide

/-- Witness for C10: after stage 5 (state recovery) of a run that started
with trading enabled, `enable_trading` is still forced off. -/
theorem C10_enable_trading_guard_witness :
    enable_trading_after true 5 = false :=
  (C10_enable_trading_guard true 5 (by decide)).1 (by decide) (by decide)

end BtdBot
